import Mathlib

/-
Shallow embedding of the zrpc server core (src/lib/zrpc/server.py).

Modeling conventions:

* BSON values are modeled by the inductive `Value`.  `Value.vraw` stands for
  a Python object that has no BSON representation (e.g. a socket object or an
  arbitrary class instance); every other constructor is BSON-representable as
  long as its components are.  Python's `None` is `Value.vnull`.
* `BSON.encode` raises `bson.InvalidDocument` exactly when some value in the
  document is not representable; this is modeled by `bsonEncode`, which checks
  `encodableFields` and otherwise returns the `InvalidDocument` exception.
  Encoded bytes are modeled by `Bytes.enc d` (the encoding of document `d`);
  `Bytes.garbage` stands for byte strings that do not decode.
* A Python exception object is modeled by `Exc`: its type's module and name,
  the lines returned by `traceback.format_exception_only` (the last one is
  `"TypeName: message"`), and its `args` attribute.
* The registry is an external callable (`zrpc.registry.Registry`, outside the
  modeled core); it is an opaque parameter of type `Registry`.  Calling
  `func(*args)` inside `get_response`'s `try` block is modeled by passing the
  outcome of that call (`Except Exc Value`): `.ok v` for a normal return,
  `.error e` for a raised `Exception`.  (`except Exception` in the source
  catches every `Exception` subclass; `BaseException`s such as SIGINT during
  dispatch are outside this model.)
* The run loop's transport is modeled by a finite script of `RecvEvent`s, one
  per attempted `socket.recv()`: bytes received, a `zmq.ZMQError` with some
  errno raised during the blocking receive, or a `KeyboardInterrupt` delivered
  there.  `socket.send` is assumed not to fail.  The attach phase (socket
  creation, bind/connect and the readiness callback — `DummyCallback` from
  zrpc.concurrency is a no-op notifier) is modeled as having succeeded; the
  model starts at the serving loop.
* `logbook.Logger.catch_exceptions()` returns a context manager whose exit
  handler logs any exception leaving the block and then suppresses it (it
  returns True), so `with run_logger.catch_exceptions()` turns an escaping
  exception into a logged, swallowed one.  `contextlib.closing(socket)`
  closes the socket on every exit of the block.  Both are reflected in `run`.
  Logging calls have no wire-visible effect and are omitted, except that the
  debug log in `process_message` evaluates `message['method']` eagerly, which
  is where a missing `method` key raises.
-/

inductive Value where
  | vnull
  | vint (n : Int)
  | vbool (b : Bool)
  | vstr (s : String)
  | vlist (xs : List Value)
  | vdoc (fs : List (String × Value))
  | vraw (tag : String)

/-- A decoded BSON document: an association list of fields (keys unique). -/
abbrev Doc := List (String × Value)

mutual

/-- Is a value representable in BSON (encodable without `InvalidDocument`)? -/
def encodable : Value → Bool
  | .vnull => true
  | .vint _ => true
  | .vbool _ => true
  | .vstr _ => true
  | .vlist xs => encodableList xs
  | .vdoc fs => encodableFields fs
  | .vraw _ => false

def encodableList : List Value → Bool
  | [] => true
  | x :: xs => encodable x && encodableList xs

def encodableFields : List (String × Value) → Bool
  | [] => true
  | f :: fs => encodable f.2 && encodableFields fs

end

/-- Python exception object: type module, type name, the lines of
`traceback.format_exception_only`, and the `args` attribute. -/
structure Exc where
  mod : String
  tyName : String
  fmtLines : List String
  args : Value

/-- Encoded wire bytes: either the encoding of a document, or bytes that do
not decode as BSON. -/
inductive Bytes where
  | enc (d : Doc)
  | garbage (tag : String)

/-- The `bson.errors.InvalidDocument` exception raised by a failing
`BSON.encode`.  Its single arg is its message string (encodable). -/
def invalidDocumentExc : Exc :=
  { mod := "bson.errors", tyName := "InvalidDocument",
    fmtLines := ["InvalidDocument: cannot convert value to bson\n"],
    args := .vlist [.vstr "cannot convert value to bson"] }

/-- The `bson.errors.InvalidBSON` exception raised by a failing decode. -/
def invalidBSONExc : Exc :=
  { mod := "bson.errors", tyName := "InvalidBSON",
    fmtLines := ["InvalidBSON: not a valid BSON document\n"],
    args := .vlist [.vstr "not a valid BSON document"] }

/-- `BSON.encode(d)`: succeeds iff every value in the document is
representable, otherwise raises `InvalidDocument`. -/
def bsonEncode (d : Doc) : Except Exc Bytes :=
  if encodableFields d then .ok (.enc d) else .error invalidDocumentExc

/-- `BSON(bytes).decode()`: total on well-formed bytes, raises on garbage. -/
def bsonDecode : Bytes → Except Exc Doc
  | .enc d => .ok d
  | .garbage _ => .error invalidBSONExc

/-- Python `str.strip()`: drop whitespace from both ends. -/
def pyStrip (s : String) : String :=
  ⟨((s.data.dropWhile Char.isWhitespace).reverse.dropWhile
      Char.isWhitespace).reverse⟩

/-- Python `KeyError` for a missing dict key (module `exceptions` in py2). -/
def keyError (k : String) : Exc :=
  { mod := "exceptions", tyName := "KeyError",
    fmtLines := ["KeyError: " ++ k ++ "\n"], args := .vlist [.vstr k] }

/-- Python `TypeError`, e.g. from `f(*x)` where `x` is not iterable. -/
def typeError (msg : String) : Exc :=
  { mod := "exceptions", tyName := "TypeError",
    fmtLines := ["TypeError: " ++ msg ++ "\n"], args := .vlist [.vstr msg] }

/-- `message.get(key, default)` / `message[key]` lookup on a decoded dict. -/
def getField : Doc → String → Option Value
  | [], _ => none
  | f :: fs, k => if f.1 = k then some f.2 else getField fs k

/-- `d[key] = v` on a dict: replace the existing entry, or add one. -/
def setField : Doc → String → Value → Doc
  | [], k, v => [(k, v)]
  | f :: fs, k, v => if f.1 = k then (k, v) :: fs else f :: setField fs k v

/-- `Server.capture_exception`: turn the current exception into a
BSON-serializable dictionary.  `type` is `module.name`; `message` is the last
line of `format_exception_only`, stripped; `args` is attached only when the
probe `BSON.encode({'args': exc.args})` does not raise `InvalidDocument`. -/
def capture_exception (e : Exc) : Doc :=
  let error : Doc :=
    [("type", .vstr (e.mod ++ "." ++ e.tyName)),
     ("message", .vstr (pyStrip (e.fmtLines.getLastD "")))]
  match bsonEncode [("args", e.args)] with
  | .ok _ => error ++ [("args", e.args)]
  | .error _ => error

/-- `message_id is None` (BSON null decodes to Python `None`). -/
def isNone : Value → Bool
  | .vnull => true
  | _ => false

/-- The `response` dict assembled by `get_response` before the first encode:
`{'result': result, 'error': error}` plus `id` when `message_id is not None`. -/
def assembleResponse (message_id : Value) (call : Except Exc Value) : Doc :=
  let result : Value := match call with | .ok v => v | .error _ => .vnull
  let error : Value :=
    match call with | .ok _ => .vnull | .error e => .vdoc (capture_exception e)
  if isNone message_id then
    [("result", result), ("error", error)]
  else
    [("result", result), ("error", error), ("id", message_id)]

/-- `Server.get_response(message_id, func, *args)`: run the call, capture a
raised exception as `error`, assemble the response and encode it; if that
encode raises `InvalidDocument`, replace `error` by a capture of that
exception, null out `result`, and encode again.  The second encode is not
guarded: if it fails too, the exception propagates (`.error`). -/
def get_response (message_id : Value) (call : Except Exc Value) :
    Except Exc Bytes :=
  match bsonEncode (assembleResponse message_id call) with
  | .ok b => .ok b
  | .error exc =>
      bsonEncode
        (setField
          (setField (assembleResponse message_id call)
            "error" (.vdoc (capture_exception exc)))
          "result" .vnull)

/-- The external registry: called as `registry(method, *params)`; may return
a value or raise an `Exception`. -/
def Registry : Type := Value → List Value → Except Exc Value

/-- `f(*params)` argument splatting: a list splats to its elements, a string
iterates by character, a dict iterates over its keys; anything else raises
`TypeError`. -/
def splatParams : Value → Except Exc (List Value)
  | .vlist xs => .ok xs
  | .vstr s => .ok (s.data.map fun c => .vstr (String.singleton c))
  | .vdoc fs => .ok (fs.map fun f => .vstr f.1)
  | _ => .error (typeError "argument after * must be a sequence")

/-- `Server.process_message`: the debug log line reads `message['method']`
eagerly in both of its branches, so a missing `method` raises `KeyError`
before dispatch; `*message['params']` then raises `KeyError` when `params` is
missing.  Otherwise delegate to `get_response` with
`message.get('id', None)` as the correlation id. -/
def process_message (registry : Registry) (message : Doc) :
    Except Exc Bytes :=
  match getField message "method" with
  | none => .error (keyError "method")
  | some m =>
    match getField message "params" with
    | none => .error (keyError "params")
    | some p =>
      match splatParams p with
      | .error e => .error e
      | .ok ps => get_response ((getField message "id").getD .vnull)
                               (registry m ps)

/-- One attempted `socket.recv()` in the serving loop: bytes arrive, or a
`zmq.ZMQError` with some errno is raised, or a `KeyboardInterrupt` lands
while blocked. -/
inductive RecvEvent where
  | recv (b : Bytes)
  | zmqError (errno : Int)
  | interrupt

/-- `zmq.ETERM` (`ZMQ_HAUSNUMERO 156384712 + 53`). -/
def ETERM : Int := 156384765

/-- An exception travelling out of the `for` loop body. -/
inductive LoopErr where
  | zmq (errno : Int)
  | exc (e : Exc)

/-- How the serving loop / `run` ends.  `.raised e` means the exception is
still propagating (it never survives `run` itself, see `run`); `.suppressed e`
means `run_logger.catch_exceptions()` logged and swallowed it and `run`
returned normally.  `.blocked` is a model artifact: the event script ran out
while the loop still wanted to receive — the real server would block forever
in `recv`, so `run` never finishes on that path. -/
inductive ExitStatus where
  | completed
  | eterm
  | interrupted
  | raised (e : LoopErr)
  | suppressed (e : LoopErr)
  | blocked

/-- Operations performed on the REP socket, in order. -/
inductive SockOp where
  | recvOp
  | sendOp (b : Bytes)
  | closeOp

/-- `iterator = die_after and repeat(None, die_after) or repeat(None)`:
both `None` and `0` are falsy in Python, so both select the unbounded
iterator; a positive count selects `repeat(None, die_after)`. -/
def iterFuel : Option Nat → Option Nat
  | none => none
  | some 0 => none
  | some (n + 1) => some (n + 1)

/-- Has the bounded iterator been exhausted?  (`none` is unbounded.) -/
def fuelDone : Option Nat → Bool
  | some 0 => true
  | _ => false

def decFuel : Option Nat → Option Nat
  | none => none
  | some n => some (n - 1)

/-- The `for _ in iterator: ... recv ... send(process_message(...))` loop with
its `try/except`: `ZMQError` with `errno == ETERM` and `KeyboardInterrupt`
exit cleanly; any other exception leaves the loop as `.raised`.  Returns the
socket-operation trace and the loop's exit status. -/
def serve (reg : Registry) : Option Nat → List RecvEvent →
    List SockOp × ExitStatus
  | fuel, [] =>
      if fuelDone fuel then ([], .completed) else ([], .blocked)
  | fuel, e :: rest =>
      if fuelDone fuel then ([], .completed)
      else
        match e with
        | .interrupt => ([], .interrupted)
        | .zmqError n =>
            if n = ETERM then ([], .eterm) else ([], .raised (.zmq n))
        | .recv b =>
            match bsonDecode b with
            | .error ex => ([.recvOp], .raised (.exc ex))
            | .ok msg =>
              match process_message reg msg with
              | .error ex => ([.recvOp], .raised (.exc ex))
              | .ok resp =>
                  let r := serve reg (decFuel fuel) rest
                  (.recvOp :: .sendOp resp :: r.1, r.2)

/-- `Server.run` from the start of the serving loop: build the iterator from
`die_after`, run the loop inside
`nested(run_logger.catch_exceptions(), closing(socket))`.  `closing` closes
the socket on every exit of the block; `catch_exceptions` logs and suppresses
an exception propagating out of it, so `run` returns normally then.  On the
`.blocked` artifact the real server is still inside `recv`, so no close
happens and `run` does not return. -/
def run (reg : Registry) (die_after : Option Nat)
    (events : List RecvEvent) : List SockOp × ExitStatus :=
  let r := serve reg (iterFuel die_after) events
  match r.2 with
  | .blocked => (r.1, .blocked)
  | .raised e => (r.1 ++ [.closeOp], .suppressed e)
  | st => (r.1 ++ [.closeOp], st)

/-- Did the `run` call return to its caller without an exception escaping? -/
def cleanReturn : ExitStatus → Bool
  | .completed => true
  | .eterm => true
  | .interrupted => true
  | .suppressed _ => true
  | .raised _ => false
  | .blocked => false

/-- A request the serving loop can answer: `method` present, `params` a
BSON array, and every value in the document BSON-representable (which any
document obtained by decoding real bytes is). -/
def wellFormed (d : Doc) : Bool :=
  (getField d "method").isSome &&
  (match getField d "params" with | some (.vlist _) => true | _ => false) &&
  encodableFields d

def countClose (tr : List SockOp) : Nat :=
  tr.countP fun o => match o with | .closeOp => true | _ => false

def countSend (tr : List SockOp) : Nat :=
  tr.countP fun o => match o with | .sendOp _ => true | _ => false

def countRecv (tr : List SockOp) : Nat :=
  tr.countP fun o => match o with | .recvOp => true | _ => false

/-- A registry that ignores its arguments and returns null; used to
instantiate concrete executions. -/
def nullRegistry : Registry := fun _ _ => .ok .vnull

/-- A registry whose every invocation raises `RuntimeError("boom")`. -/
def boomExc : Exc :=
  { mod := "exceptions", tyName := "RuntimeError",
    fmtLines := ["Traceback (most recent call last):\n",
                 "RuntimeError: boom\n"],
    args := .vlist [.vstr "boom"] }

def boomRegistry : Registry := fun _ _ => .error boomExc

/-- A minimal well-formed request with no id. -/
def pingDoc : Doc := [("method", .vstr "ping"), ("params", .vlist [])]

/-- Did an encode attempt succeed? -/
def excIsOk : Except Exc Bytes → Bool
  | .ok _ => true
  | .error _ => false

/-- A registry exposing one method that adds two ints (spec section 8). -/
def addRegistry : Registry := fun _ ps =>
  match ps with
  | [.vint a, .vint b] => .ok (.vint (a + b))
  | _ => .error boomExc

/-! Helper lemmas about the response builder. -/

theorem capture_encodable (e : Exc) :
    encodableFields (capture_exception e) = true := by
  unfold capture_exception
  cases he : bsonEncode [("args", e.args)] with
  | ok b =>
      have h : encodableFields [("args", e.args)] = true := by
        unfold bsonEncode at he
        by_cases hc : encodableFields [("args", e.args)] = true
        · exact hc
        · simp [hc] at he
      have ha : encodable e.args = true := by
        simpa [encodableFields] using h
      simp [encodableFields, encodable, ha]
  | error ex => simp [encodableFields, encodable]

theorem getField_encodable : ∀ {d : Doc} {k : String} {v : Value},
    encodableFields d = true → getField d k = some v → encodable v = true := by
  intro d
  induction d with
  | nil => intro k v _ hg; simp [getField] at hg
  | cons f fs ih =>
      intro k v he hg
      rw [encodableFields] at he
      rw [Bool.and_eq_true] at he
      rw [getField] at hg
      by_cases hk : f.1 = k
      · rw [if_pos hk] at hg
        cases hg
        exact he.1
      · rw [if_neg hk] at hg
        exact ih he.2 hg

theorem getField_setField_eq : ∀ (d : Doc) (k : String) (v : Value),
    getField (setField d k v) k = some v := by
  intro d
  induction d with
  | nil => intro k v; simp [setField, getField]
  | cons f fs ih =>
      intro k v
      rw [setField]
      by_cases hk : f.1 = k
      · rw [if_pos hk]; simp [getField]
      · rw [if_neg hk]; rw [getField, if_neg hk]; exact ih k v

theorem getField_setField_ne :
    ∀ (d : Doc) (k k' : String) (v : Value), k ≠ k' →
    getField (setField d k v) k' = getField d k' := by
  intro d
  induction d with
  | nil => intro k k' v h; simp [setField, getField, h]
  | cons f fs ih =>
      intro k k' v h
      rw [setField]
      by_cases hk : f.1 = k
      · rw [if_pos hk]
        rw [getField, getField, if_neg (hk ▸ h), if_neg (by rw [hk]; exact h)]
      · rw [if_neg hk]
        rw [getField, getField]
        by_cases hk' : f.1 = k'
        · rw [if_pos hk', if_pos hk']
        · rw [if_neg hk', if_neg hk']; exact ih k k' v h

theorem bsonEncode_ok_shape {d : Doc} {b : Bytes}
    (h : bsonEncode d = .ok b) : b = .enc d := by
  unfold bsonEncode at h
  by_cases hc : encodableFields d = true
  · rw [if_pos hc] at h; cases h; rfl
  · simp [hc] at h

theorem bsonEncode_ok_encodable {d : Doc} {b : Bytes}
    (h : bsonEncode d = .ok b) : encodableFields d = true := by
  unfold bsonEncode at h
  by_cases hc : encodableFields d = true
  · exact hc
  · simp [hc] at h

theorem assemble_id (mid : Value) (call : Except Exc Value) :
    getField (assembleResponse mid call) "id" =
      if isNone mid then none else some mid := by
  cases mid <;> rfl

theorem assemble_err_result (mid : Value) (exc : Exc) :
    getField (assembleResponse mid (.error exc)) "result" = some .vnull := by
  cases mid <;> rfl

theorem assemble_err_error (mid : Value) (exc : Exc) :
    getField (assembleResponse mid (.error exc)) "error" =
      some (.vdoc (capture_exception exc)) := by
  cases mid <;> rfl

theorem assemble_err_encodable (mid : Value) (exc : Exc)
    (h : encodable mid = true) :
    encodableFields (assembleResponse mid (.error exc)) = true := by
  cases mid <;>
    simp_all [assembleResponse, isNone, encodableFields, encodable,
              capture_encodable]

theorem fallback_encodable (mid : Value) (call : Except Exc Value) (exc : Exc)
    (h : encodable mid = true) :
    encodableFields
      (setField
        (setField (assembleResponse mid call) "error"
          (.vdoc (capture_exception exc)))
        "result" .vnull) = true := by
  cases mid <;> cases call <;>
    simp_all [assembleResponse, isNone, setField, encodableFields, encodable,
              capture_encodable]

theorem get_response_fallback (mid : Value) (call : Except Exc Value)
    (exc : Exc) (h : encodable mid = true)
    (he : bsonEncode (assembleResponse mid call) = .error exc) :
    get_response mid call =
      .ok (.enc (setField
        (setField (assembleResponse mid call) "error"
          (.vdoc (capture_exception exc)))
        "result" .vnull)) := by
  unfold get_response
  rw [he]
  simp [bsonEncode, fallback_encodable mid call exc h]

theorem get_response_ok_total (mid : Value) (call : Except Exc Value)
    (h : encodable mid = true) :
    ∃ r : Doc, get_response mid call = .ok (.enc r) := by
  cases he : bsonEncode (assembleResponse mid call) with
  | ok b =>
      refine ⟨assembleResponse mid call, ?_⟩
      unfold get_response
      rw [he, bsonEncode_ok_shape he]
  | error exc =>
      exact ⟨_, get_response_fallback mid call exc h he⟩

theorem get_response_id {mid : Value} {call : Except Exc Value} {r : Doc}
    (h : get_response mid call = .ok (.enc r)) :
    getField r "id" = if isNone mid then none else some mid := by
  unfold get_response at h
  cases he : bsonEncode (assembleResponse mid call) with
  | ok b =>
      rw [he] at h
      have hb := bsonEncode_ok_shape he
      rw [hb] at h
      cases h
      exact assemble_id mid call
  | error exc =>
      rw [he] at h
      have hb := bsonEncode_ok_shape h
      cases hb
      rw [getField_setField_ne _ _ _ _ (by decide),
          getField_setField_ne _ _ _ _ (by decide)]
      exact assemble_id mid call

theorem get_response_err (mid : Value) (exc : Exc)
    (h : encodable mid = true) :
    get_response mid (.error exc) =
      .ok (.enc (assembleResponse mid (.error exc))) := by
  unfold get_response
  simp [bsonEncode, assemble_err_encodable mid exc h]

theorem wellFormed_parts {d : Doc} (h : wellFormed d = true) :
    (∃ m, getField d "method" = some m) ∧
    (∃ ps, getField d "params" = some (.vlist ps)) ∧
    encodableFields d = true := by
  unfold wellFormed at h
  rw [Bool.and_eq_true, Bool.and_eq_true] at h
  obtain ⟨⟨h1, h2⟩, h3⟩ := h
  refine ⟨?_, ?_, h3⟩
  · exact Option.isSome_iff_exists.mp h1
  · cases hp : getField d "params" with
    | none => rw [hp] at h2; simp at h2
    | some p =>
        cases p <;> rw [hp] at h2 <;> simp at h2
        case vlist xs => exact ⟨xs, rfl⟩

theorem mid_encodable {d : Doc} (h : encodableFields d = true) :
    encodable ((getField d "id").getD .vnull) = true := by
  cases hid : getField d "id" with
  | none => rfl
  | some v => simpa using getField_encodable h hid

theorem process_message_ok (reg : Registry) (d : Doc)
    (h : wellFormed d = true) :
    ∃ r : Doc, process_message reg d = .ok (.enc r) := by
  obtain ⟨⟨m, hm⟩, ⟨ps, hp⟩, h3⟩ := wellFormed_parts h
  unfold process_message
  rw [hm, hp]
  simp only [splatParams]
  exact get_response_ok_total _ _ (mid_encodable h3)

/-! Helper lemmas about the serving loop. -/

theorem iterFuel_not_done (da : Option Nat) :
    fuelDone (iterFuel da) = false := by
  cases da with
  | none => rfl
  | some n => cases n <;> rfl

theorem serve_done {fuel : Option Nat} (reg : Registry)
    (evts : List RecvEvent) (h : fuelDone fuel = true) :
    serve reg fuel evts = ([], .completed) := by
  cases evts <;> simp [serve, h]

theorem serve_recv_ok {reg : Registry} {fuel : Option Nat} {d r : Doc}
    (rest : List RecvEvent) (hf : fuelDone fuel = false)
    (hp : process_message reg d = .ok (.enc r)) :
    serve reg fuel (.recv (.enc d) :: rest) =
      (.recvOp :: .sendOp (.enc r) :: (serve reg (decFuel fuel) rest).1,
       (serve reg (decFuel fuel) rest).2) := by
  simp [serve, hf, bsonDecode, hp]

theorem serve_recv_err {reg : Registry} {fuel : Option Nat} {d : Doc}
    {ex : Exc} (rest : List RecvEvent) (hf : fuelDone fuel = false)
    (hp : process_message reg d = .error ex) :
    serve reg fuel (.recv (.enc d) :: rest) =
      ([.recvOp], .raised (.exc ex)) := by
  simp [serve, hf, bsonDecode, hp]

theorem serve_countClose (reg : Registry) :
    ∀ (evts : List RecvEvent) (fuel : Option Nat),
    countClose (serve reg fuel evts).1 = 0 := by
  intro evts
  induction evts with
  | nil =>
      intro fuel
      by_cases h : fuelDone fuel = true <;> simp [serve, h, countClose]
  | cons e rest ih =>
      intro fuel
      by_cases h : fuelDone fuel = true
      · simp [serve, h, countClose]
      · rw [Bool.not_eq_true] at h
        cases e with
        | interrupt => simp [serve, h, countClose]
        | zmqError n =>
            by_cases hn : n = ETERM <;> simp [serve, h, hn, countClose]
        | recv b =>
            cases b with
            | garbage t => simp [serve, h, bsonDecode, countClose]
            | enc d =>
                cases hp : process_message reg d with
                | error ex => simp [serve, h, bsonDecode, hp, countClose]
                | ok resp =>
                    simp [serve, h, bsonDecode, hp, countClose,
                          List.countP_cons]
                    simpa [countClose] using ih (decFuel fuel)

theorem serve_all_wellFormed (reg : Registry) :
    ∀ (ds : List Doc) (extra : List RecvEvent),
    (∀ d ∈ ds, wellFormed d = true) →
    ∃ tr, serve reg (some ds.length)
        (ds.map (fun d => .recv (.enc d)) ++ extra) = (tr, .completed) ∧
      countRecv tr = ds.length ∧ countSend tr = ds.length := by
  intro ds
  induction ds with
  | nil =>
      intro extra _
      exact ⟨[], serve_done reg extra rfl, rfl, rfl⟩
  | cons d ds ih =>
      intro extra hwf
      obtain ⟨r, hp⟩ := process_message_ok reg d (hwf d (by simp))
      obtain ⟨tr, htr, hc1, hc2⟩ :=
        ih extra (fun x hx => hwf x (by simp [hx]))
      refine ⟨.recvOp :: .sendOp (.enc r) :: tr, ?_, ?_, ?_⟩
      · rw [List.map_cons, List.cons_append,
            @serve_recv_ok reg (some (d :: ds).length) d r
              (ds.map (fun x => RecvEvent.recv (Bytes.enc x)) ++ extra) rfl hp]
        have hd : decFuel (some (d :: ds).length) = some ds.length := rfl
        rw [hd, htr]
      · simp [countRecv, List.countP_cons] at hc1 ⊢
        omega
      · simp [countSend, List.countP_cons] at hc2 ⊢
        omega

theorem run_of_completed {reg : Registry} {da : Option Nat}
    {evts : List RecvEvent} {tr : List SockOp}
    (hs : serve reg (iterFuel da) evts = (tr, .completed)) :
    run reg da evts = (tr ++ [.closeOp], .completed) := by
  simp [run, hs]

theorem run_of_raised {reg : Registry} {da : Option Nat}
    {evts : List RecvEvent} {tr : List SockOp} {e : LoopErr}
    (hs : serve reg (iterFuel da) evts = (tr, .raised e)) :
    run reg da evts = (tr ++ [.closeOp], .suppressed e) := by
  simp [run, hs]

theorem run_never_raises (reg : Registry) (da : Option Nat)
    (evts : List RecvEvent) (e : LoopErr) :
    (run reg da evts).2 ≠ .raised e := by
  rcases hs : serve reg (iterFuel da) evts with ⟨tr, st⟩
  cases st <;> simp [run, hs]

theorem countClose_concat (tr : List SockOp) :
    countClose (tr ++ [SockOp.closeOp]) = countClose tr + 1 := by
  simp [countClose, List.countP_append]

theorem countRecv_concat_close (tr : List SockOp) :
    countRecv (tr ++ [SockOp.closeOp]) = countRecv tr := by
  simp [countRecv, List.countP_append]

theorem countSend_concat_close (tr : List SockOp) :
    countSend (tr ++ [SockOp.closeOp]) = countSend tr := by
  simp [countSend, List.countP_append]

theorem process_message_shape {reg : Registry} {d : Doc} {r : Doc}
    (h : process_message reg d = .ok (.enc r)) :
    ∃ m p ps, getField d "method" = some m ∧ getField d "params" = some p ∧
      splatParams p = .ok ps ∧
      get_response ((getField d "id").getD .vnull) (reg m ps) =
        .ok (.enc r) := by
  unfold process_message at h
  cases hm : getField d "method" with
  | none => simp only [hm] at h; exact Except.noConfusion h
  | some m =>
      cases hp : getField d "params" with
      | none => simp only [hm, hp] at h; exact Except.noConfusion h
      | some p =>
          cases hsp : splatParams p with
          | error e =>
              simp only [hm, hp, hsp] at h
              exact Except.noConfusion h
          | ok ps =>
              simp only [hm, hp, hsp] at h
              exact ⟨m, p, ps, rfl, rfl, hsp, h⟩

/-! The claims. -/

/-- C1, counterexample to the claim as stated: with a correlation id that is
itself not BSON-encodable, both encode passes fail and `get_response`
raises `InvalidDocument` instead of returning bytes. -/
theorem get_response_raises_on_unencodable_id :
    get_response (.vraw "socket object") (.ok .vnull) =
      .error invalidDocumentExc := rfl

/-- C1 (amended): for every BSON-encodable correlation id (in particular any
id taken from a decoded request, and the absent id `None`), `get_response`
returns encoded response bytes on every execution path — whatever the
registry call did, and even when the first encode of the response fails. -/
theorem get_response_total_of_encodable_id (mid : Value)
    (call : Except Exc Value) (h : encodable mid = true) :
    ∃ r : Doc, get_response mid call = .ok (.enc r) :=
  get_response_ok_total mid call h

/-- C1, witness: id 7 with a non-encodable registry return value (the
fallback path) still yields bytes. -/
theorem get_response_total_of_encodable_id_witness :
    encodable (.vint 7) = true ∧
    ∃ r : Doc, get_response (.vint 7) (.ok (.vraw "unencodable result")) =
      .ok (.enc r) :=
  ⟨rfl, get_response_total_of_encodable_id (.vint 7)
    (.ok (.vraw "unencodable result")) rfl⟩

/-- C2, counterexample to the claim as stated: `die_after = 0` does not
perform zero cycles and return; `0` is falsy, so the unbounded iterator is
chosen — three queued requests are all answered, the loop keeps wanting
more, and the socket is never closed. -/
theorem run_die_after_zero_is_unbounded :
    countSend (run nullRegistry (some 0)
      [.recv (.enc pingDoc), .recv (.enc pingDoc),
       .recv (.enc pingDoc)]).1 = 3 ∧
    countClose (run nullRegistry (some 0)
      [.recv (.enc pingDoc), .recv (.enc pingDoc),
       .recv (.enc pingDoc)]).1 = 0 ∧
    (run nullRegistry (some 0)
      [.recv (.enc pingDoc), .recv (.enc pingDoc),
       .recv (.enc pingDoc)]).2 = .blocked :=
  ⟨rfl, rfl, rfl⟩

/-- C2 (amended): for every N ≥ 1 (a nonempty list of queued well-formed
requests), `run` with `die_after = N` performs exactly N receive/send
cycles — further queued events are not consumed — then closes the socket
and returns without raising.  (`die_after = 0` instead behaves like `None`:
unbounded.) -/
theorem run_die_after_exact_cycles (reg : Registry) (ds : List Doc)
    (extra : List RecvEvent) (hne : ds ≠ [])
    (hwf : ∀ d ∈ ds, wellFormed d = true) :
    ∃ tr, run reg (some ds.length)
        (ds.map (fun d => RecvEvent.recv (Bytes.enc d)) ++ extra) =
        (tr, .completed) ∧
      countRecv tr = ds.length ∧ countSend tr = ds.length ∧
      countClose tr = 1 ∧ cleanReturn .completed = true := by
  obtain ⟨tr0, hs, h1, h2⟩ := serve_all_wellFormed reg ds extra hwf
  have hif : iterFuel (some ds.length) = some ds.length := by
    cases ds with
    | nil => exact absurd rfl hne
    | cons a l => rfl
  have hs' : serve reg (iterFuel (some ds.length))
      (ds.map (fun d => RecvEvent.recv (Bytes.enc d)) ++ extra) =
      (tr0, .completed) := by rw [hif]; exact hs
  have hc : countClose tr0 = 0 := by
    have hh := serve_countClose reg
      (ds.map (fun d => RecvEvent.recv (Bytes.enc d)) ++ extra)
      (iterFuel (some ds.length))
    rw [hs'] at hh
    exact hh
  refine ⟨tr0 ++ [SockOp.closeOp], run_of_completed hs', ?_, ?_, ?_, rfl⟩
  · rw [countRecv_concat_close]; exact h1
  · rw [countSend_concat_close]; exact h2
  · rw [countClose_concat, hc]

/-- C2, witness: two queued requests with `die_after = 2` and one extra
queued event give exactly two cycles, one close, and a clean return. -/
theorem run_die_after_exact_cycles_witness :
    ([pingDoc, pingDoc] : List Doc) ≠ [] ∧
    ∃ tr, run nullRegistry (some [pingDoc, pingDoc].length)
        ([pingDoc, pingDoc].map (fun d => RecvEvent.recv (Bytes.enc d)) ++
          [.interrupt]) =
        (tr, .completed) ∧
      countRecv tr = [pingDoc, pingDoc].length ∧
      countSend tr = [pingDoc, pingDoc].length ∧
      countClose tr = 1 ∧ cleanReturn .completed = true := by
  refine ⟨by simp, ?_⟩
  refine run_die_after_exact_cycles nullRegistry [pingDoc, pingDoc]
    [.interrupt] (by simp) ?_
  intro d hd
  rcases List.mem_cons.mp hd with rfl | hd2
  · rfl
  · rcases List.mem_cons.mp hd2 with rfl | hd3
    · rfl
    · exact absurd hd3 (List.not_mem_nil d)

/-- C3, counterexample to the claim as stated: a request whose `id` field is
present but null gets a response with no `id` field at all
(`message.get('id', None)` cannot tell a null id from an absent one). -/
theorem null_id_request_response_omits_id :
    getField [("id", Value.vnull), ("method", Value.vstr "m"),
              ("params", Value.vlist [])] "id" = some .vnull ∧
    process_message nullRegistry
      [("id", .vnull), ("method", .vstr "m"), ("params", .vlist [])] =
      .ok (.enc [("result", .vnull), ("error", .vnull)]) ∧
    getField [("result", Value.vnull), ("error", Value.vnull)] "id" = none :=
  ⟨rfl, rfl, rfl⟩

/-- C3 (amended): whenever `process_message` answers a request, a non-null
request `id` is mirrored identically in the response, and the response omits
`id` when the request omitted it or carried a null one. -/
theorem response_id_mirrors_request_id (reg : Registry) (d r : Doc)
    (h : process_message reg d = .ok (.enc r)) :
    ((getField d "id" = none ∨ getField d "id" = some .vnull) →
      getField r "id" = none) ∧
    (∀ v, getField d "id" = some v → isNone v = false →
      getField r "id" = some v) := by
  obtain ⟨m, p, ps, hm, hp, hsp, hr⟩ := process_message_shape h
  have hid := get_response_id hr
  constructor
  · intro hcase
    rcases hcase with hc | hc <;> rw [hc] at hid <;> simpa [isNone] using hid
  · intro v hv hnv
    rw [hv] at hid
    simpa [hnv] using hid

/-- C3, witness: a request with integer id 7 is answered with the same id,
and one without id is answered without one. -/
theorem response_id_mirrors_request_id_witness :
    process_message addRegistry
      [("method", .vstr "add"), ("params", .vlist [.vint 2, .vint 3]),
       ("id", .vint 7)] =
      .ok (.enc [("result", .vint 5), ("error", .vnull),
                 ("id", .vint 7)]) ∧
    getField [("method", Value.vstr "add"),
              ("params", Value.vlist [.vint 2, .vint 3]),
              ("id", Value.vint 7)] "id" = some (.vint 7) ∧
    isNone (.vint 7) = false ∧
    getField [("result", Value.vint 5), ("error", Value.vnull),
              ("id", Value.vint 7)] "id" = some (.vint 7) := by
  refine ⟨rfl, rfl, rfl, ?_⟩
  exact (response_id_mirrors_request_id addRegistry
    [("method", .vstr "add"), ("params", .vlist [.vint 2, .vint 3]),
     ("id", .vint 7)]
    [("result", .vint 5), ("error", .vnull), ("id", .vint 7)] rfl).2
    (.vint 7) rfl rfl

/-- C4: for every captured exception, the Error Record has `type` equal to
the exception type's module joined to its name by a dot, `message` equal to
the stripped last line of the formatted exception text, and `args` present
(with the exact args value) exactly when the isolated probe
`BSON.encode({'args': exc.args})` succeeds. -/
theorem capture_exception_fields (e : Exc) :
    getField (capture_exception e) "type" =
      some (.vstr (e.mod ++ "." ++ e.tyName)) ∧
    getField (capture_exception e) "message" =
      some (.vstr (pyStrip (e.fmtLines.getLastD ""))) ∧
    getField (capture_exception e) "args" =
      (if excIsOk (bsonEncode [("args", e.args)]) then some e.args
       else none) := by
  cases he : bsonEncode [("args", e.args)] with
  | ok b =>
      unfold capture_exception
      rw [he]
      exact ⟨rfl, rfl, rfl⟩
  | error ex =>
      unfold capture_exception
      rw [he]
      exact ⟨rfl, rfl, rfl⟩

/-- C5, counterexample to the claim as stated: when the correlation id is
itself not encodable, the first encode of the assembled response fails and
the fallback re-encode fails too, so no bytes are returned at all. -/
theorem fallback_encode_raises_on_unencodable_id :
    bsonEncode (assembleResponse (.vraw "channel") (.error boomExc)) =
      .error invalidDocumentExc ∧
    get_response (.vraw "channel") (.error boomExc) =
      .error invalidDocumentExc :=
  ⟨rfl, rfl⟩

/-- C5 (amended): for every encodable (or absent) correlation id, when the
first encode of the assembled response fails, `get_response` returns the
re-encoded bytes of a document with `result` null and `error` replaced by a
fresh Error Record capturing that encoding failure. -/
theorem fallback_produces_null_result_and_fresh_error (mid : Value)
    (call : Except Exc Value) (exc : Exc) (h : encodable mid = true)
    (he : bsonEncode (assembleResponse mid call) = .error exc) :
    ∃ r : Doc, get_response mid call = .ok (.enc r) ∧
      getField r "result" = some .vnull ∧
      getField r "error" = some (.vdoc (capture_exception exc)) := by
  refine ⟨_, get_response_fallback mid call exc h he, ?_, ?_⟩
  · exact getField_setField_eq _ "result" .vnull
  · rw [getField_setField_ne _ _ _ _ (by decide)]
    exact getField_setField_eq _ "error" _

/-- C5, witness: id 3 with a non-encodable registry result triggers the
fallback and yields bytes with a null result and the fresh error record. -/
theorem fallback_produces_null_result_witness :
    encodable (.vint 3) = true ∧
    bsonEncode (assembleResponse (.vint 3) (.ok (.vraw "obj"))) =
      .error invalidDocumentExc ∧
    ∃ r : Doc, get_response (.vint 3) (.ok (.vraw "obj")) = .ok (.enc r) ∧
      getField r "result" = some .vnull ∧
      getField r "error" =
        some (.vdoc (capture_exception invalidDocumentExc)) :=
  ⟨rfl, rfl, fallback_produces_null_result_and_fresh_error (.vint 3)
    (.ok (.vraw "obj")) invalidDocumentExc rfl rfl⟩

/-- C6: when the registry invocation for a well-formed request raises, the
response sent for that cycle has `result` null and `error` equal to the
captured Error Record, and the loop continues on the remaining events
exactly as it would have: a dispatch failure on request N never prevents
request N+1 from being served in the same run. -/
theorem dispatch_failure_loop_continues (reg : Registry) (fuel : Option Nat)
    (rest : List RecvEvent) (d : Doc) (m : Value) (ps : List Value)
    (exc : Exc) (hf : fuelDone fuel = false)
    (hm : getField d "method" = some m)
    (hp : getField d "params" = some (.vlist ps))
    (hd : encodableFields d = true)
    (hr : reg m ps = .error exc) :
    serve reg fuel (.recv (.enc d) :: rest) =
      (.recvOp :: .sendOp (.enc (assembleResponse
          ((getField d "id").getD .vnull) (.error exc))) ::
        (serve reg (decFuel fuel) rest).1,
       (serve reg (decFuel fuel) rest).2) ∧
    getField (assembleResponse ((getField d "id").getD .vnull) (.error exc))
      "result" = some .vnull ∧
    getField (assembleResponse ((getField d "id").getD .vnull) (.error exc))
      "error" = some (.vdoc (capture_exception exc)) := by
  have hmid := mid_encodable hd
  have hproc : process_message reg d =
      .ok (.enc (assembleResponse ((getField d "id").getD .vnull)
        (.error exc))) := by
    unfold process_message
    rw [hm, hp]
    simp only [splatParams, hr]
    exact get_response_err _ exc hmid
  exact ⟨serve_recv_ok rest hf hproc,
         assemble_err_result _ exc, assemble_err_error _ exc⟩

/-- C6, witness: a failing dispatch with one more queued request behind it;
the error response is sent and the rest of the loop is untouched. -/
theorem dispatch_failure_loop_continues_witness :
    fuelDone (some 2) = false ∧
    getField [("method", Value.vstr "fail"), ("params", Value.vlist [])]
      "method" = some (.vstr "fail") ∧
    boomRegistry (.vstr "fail") [] = .error boomExc ∧
    serve boomRegistry (some 2)
        [.recv (.enc [("method", .vstr "fail"), ("params", .vlist [])]),
         .interrupt] =
      (.recvOp :: .sendOp (.enc (assembleResponse
          ((getField [("method", Value.vstr "fail"),
                      ("params", Value.vlist [])] "id").getD .vnull)
          (.error boomExc))) ::
        (serve boomRegistry (decFuel (some 2)) [.interrupt]).1,
       (serve boomRegistry (decFuel (some 2)) [.interrupt]).2) ∧
    getField (assembleResponse
        ((getField [("method", Value.vstr "fail"),
                    ("params", Value.vlist [])] "id").getD .vnull)
        (.error boomExc)) "result" = some .vnull := by
  refine ⟨rfl, rfl, rfl, ?_, ?_⟩
  · exact (dispatch_failure_loop_continues boomRegistry (some 2) [.interrupt]
      [("method", .vstr "fail"), ("params", .vlist [])] (.vstr "fail") []
      boomExc rfl rfl rfl rfl rfl).1
  · exact (dispatch_failure_loop_continues boomRegistry (some 2) [.interrupt]
      [("method", .vstr "fail"), ("params", .vlist [])] (.vstr "fail") []
      boomExc rfl rfl rfl rfl rfl).2.1

/-- C7, counterexample to the claim as stated: a transport error other than
ETERM (errno 11 here) does not propagate out of `run`; the loop-level
exception-catching scope of the run logger logs it and suppresses it, and
`run` returns normally. -/
theorem transport_error_suppressed_not_raised :
    run nullRegistry none [.zmqError 11] =
      ([.closeOp], .suppressed (.zmq 11)) ∧
    cleanReturn (run nullRegistry none [.zmqError 11]).2 = true :=
  ⟨rfl, rfl⟩

/-- C7 (amended): `run` returns normally when the loop ends on ETERM or on
an interactive interrupt; a transport error with any other errno also does
not escape — it is re-raised past the except clause, then logged and
suppressed by the run logger's exception-catching scope, so no exception of
any kind ever propagates out of `run`. -/
theorem run_termination_behaviour (reg : Registry) (da : Option Nat)
    (rest evts : List RecvEvent) (n : Int) (hn : n ≠ ETERM) :
    run reg da (.zmqError ETERM :: rest) = ([.closeOp], .eterm) ∧
    cleanReturn .eterm = true ∧
    run reg da (.interrupt :: rest) = ([.closeOp], .interrupted) ∧
    cleanReturn .interrupted = true ∧
    run reg da (.zmqError n :: rest) = ([.closeOp], .suppressed (.zmq n)) ∧
    cleanReturn (.suppressed (.zmq n)) = true ∧
    (∀ e, (run reg da evts).2 ≠ .raised e) := by
  have hf := iterFuel_not_done da
  have h1 : serve reg (iterFuel da) (.zmqError ETERM :: rest) =
      ([], .eterm) := by simp [serve, hf]
  have h2 : serve reg (iterFuel da) (.interrupt :: rest) =
      ([], .interrupted) := by simp [serve, hf]
  have h3 : serve reg (iterFuel da) (.zmqError n :: rest) =
      ([], .raised (.zmq n)) := by simp [serve, hf, hn]
  refine ⟨?_, rfl, ?_, rfl, ?_, rfl, run_never_raises reg da evts⟩
  · simp [run, h1]
  · simp [run, h2]
  · simp [run, h3]

/-- C7, witness: errno 11 is not ETERM; instantiating the amended claim. -/
theorem run_termination_behaviour_witness :
    (11 : Int) ≠ ETERM ∧
    (run nullRegistry none [.zmqError ETERM] = ([.closeOp], .eterm) ∧
     cleanReturn .eterm = true ∧
     run nullRegistry none [.interrupt] = ([.closeOp], .interrupted) ∧
     cleanReturn .interrupted = true ∧
     run nullRegistry none [.zmqError 11] =
       ([.closeOp], .suppressed (.zmq 11)) ∧
     cleanReturn (.suppressed (.zmq 11)) = true ∧
     (∀ e, (run nullRegistry none ([] : List RecvEvent)).2 ≠ .raised e)) :=
  ⟨by decide,
   run_termination_behaviour nullRegistry none [] [] 11 (by decide)⟩

/-- C8: on every exit path on which `run` finishes (normal completion,
termination signal, interrupt, or a suppressed fatal error), the socket is
closed exactly once, and the close is the last socket operation. -/
theorem socket_closed_exactly_once_on_exit (reg : Registry)
    (da : Option Nat) (evts : List RecvEvent)
    (h : (run reg da evts).2 ≠ .blocked) :
    countClose (run reg da evts).1 = 1 ∧
    (run reg da evts).1.getLast? = some .closeOp := by
  rcases hs : serve reg (iterFuel da) evts with ⟨tr, st⟩
  have hc : countClose tr = 0 := by
    have hh := serve_countClose reg evts (iterFuel da)
    rw [hs] at hh
    exact hh
  have step : (run reg da evts).1 = tr ++ [SockOp.closeOp] →
      countClose (run reg da evts).1 = 1 ∧
      (run reg da evts).1.getLast? = some .closeOp := by
    intro hr
    rw [hr]
    exact ⟨by rw [countClose_concat, hc], List.getLast?_concat _⟩
  cases st with
  | blocked =>
      exact absurd (show (run reg da evts).2 = .blocked by simp [run, hs]) h
  | completed => exact step (by simp [run, hs])
  | eterm => exact step (by simp [run, hs])
  | interrupted => exact step (by simp [run, hs])
  | raised e => exact step (by simp [run, hs])
  | suppressed e => exact step (by simp [run, hs])

/-- C8, witness: a one-request run (die_after 1) finishes with exactly one
close as the final socket operation. -/
theorem socket_closed_exactly_once_witness :
    (run nullRegistry (some 1) [.recv (.enc pingDoc)]).2 ≠ .blocked ∧
    countClose (run nullRegistry (some 1) [.recv (.enc pingDoc)]).1 = 1 ∧
    (run nullRegistry (some 1) [.recv (.enc pingDoc)]).1.getLast? =
      some .closeOp := by
  have hne : (run nullRegistry (some 1)
      [.recv (.enc pingDoc)]).2 ≠ .blocked := by
    intro hc
    rw [show (run nullRegistry (some 1)
      [RecvEvent.recv (Bytes.enc pingDoc)]).2 = .completed from rfl] at hc
    exact ExitStatus.noConfusion hc
  obtain ⟨hc1, hc2⟩ := socket_closed_exactly_once_on_exit nullRegistry
    (some 1) [.recv (.enc pingDoc)] hne
  exact ⟨hne, hc1, hc2⟩

/-- C9: a decoded request missing `method` or `params` makes
`process_message` raise a KeyError instead of producing a response; the
exception ends the serving loop after the lone receive — no response is
sent for that request, nothing later is processed, and the socket is
closed. -/
theorem malformed_request_fatal_no_response (reg : Registry)
    (da : Option Nat) (d : Doc) (rest : List RecvEvent)
    (h : getField d "method" = none ∨ getField d "params" = none) :
    ∃ e, process_message reg d = .error e ∧
      run reg da (.recv (.enc d) :: rest) =
        ([.recvOp, .closeOp], .suppressed (.exc e)) := by
  have hf := iterFuel_not_done da
  have hproc : ∃ e, process_message reg d = .error e := by
    cases hm : getField d "method" with
    | none =>
        exact ⟨keyError "method", by unfold process_message; rw [hm]⟩
    | some m =>
        rcases h with h | h
        · rw [hm] at h; exact Option.noConfusion h
        · exact ⟨keyError "params", by unfold process_message; rw [hm, h]⟩
  obtain ⟨e, he⟩ := hproc
  refine ⟨e, he, ?_⟩
  rw [run_of_raised (serve_recv_err rest hf he)]
  rfl

/-- C9, witness: a request carrying only `params`; the loop dies with a
KeyError for `method` and the client gets nothing back. -/
theorem malformed_request_fatal_witness :
    (getField [("params", Value.vlist [])] "method" = none ∨
     getField [("params", Value.vlist [])] "params" = none) ∧
    ∃ e, process_message nullRegistry [("params", .vlist [])] = .error e ∧
      run nullRegistry none [.recv (.enc [("params", .vlist [])])] =
        ([.recvOp, .closeOp], .suppressed (.exc e)) :=
  ⟨Or.inl rfl, malformed_request_fatal_no_response nullRegistry none
    [("params", .vlist [])] [] (Or.inl rfl)⟩

/-- C10: a request whose `id` is present but null is handled exactly like
one with no `id` at all: `message.get('id', None)` yields `None` for both,
so `process_message` produces identical responses for any two requests
that agree on `method` and `params` and carry, respectively, a null id and
no id. -/
theorem null_id_equals_absent_id (reg : Registry) (d d' : Doc)
    (h1 : getField d "id" = some .vnull) (h2 : getField d' "id" = none)
    (hm : getField d "method" = getField d' "method")
    (hp : getField d "params" = getField d' "params") :
    process_message reg d = process_message reg d' := by
  unfold process_message
  rw [hm, hp, h1, h2]
  rfl

/-- C10, witness: the same ping request with a null id and with no id gets
the identical response. -/
theorem null_id_equals_absent_id_witness :
    getField [("id", Value.vnull), ("method", Value.vstr "ping"),
              ("params", Value.vlist [])] "id" = some .vnull ∧
    getField pingDoc "id" = none ∧
    process_message nullRegistry
      [("id", .vnull), ("method", .vstr "ping"), ("params", .vlist [])] =
      process_message nullRegistry pingDoc :=
  ⟨rfl, rfl, null_id_equals_absent_id nullRegistry
    [("id", .vnull), ("method", .vstr "ping"), ("params", .vlist [])]
    pingDoc rfl rfl rfl rfl⟩

/-- Spec section 8 example: request `add` with params [2, 3] and id 7 yields
`{'id': 7, 'result': 5, 'error': None}`. -/
theorem spec_example_add :
    process_message addRegistry
      [("method", .vstr "add"), ("params", .vlist [.vint 2, .vint 3]),
       ("id", .vint 7)] =
      .ok (.enc [("result", .vint 5), ("error", .vnull),
                 ("id", .vint 7)]) := rfl

/-- Spec section 8 example: a failing method with no id yields a null result,
an error record with qualified type and the stripped last formatted line,
and no id key. -/
theorem spec_example_fail_no_id :
    process_message boomRegistry
      [("method", .vstr "fail"), ("params", .vlist [])] =
      .ok (.enc [("result", .vnull),
                 ("error", .vdoc
                   [("type", .vstr "exceptions.RuntimeError"),
                    ("message", .vstr "RuntimeError: boom"),
                    ("args", .vlist [.vstr "boom"])])]) := rfl
